import Mathlib

/-!
Verification of the PARP E310 RFID firmware core (shallow embedding).

Bytes are modelled as `Nat` values `< 256`; 16-bit quantities as `Nat < 2^16`
with explicit masking where C unsigned overflow matters.  Fallible C functions
returning negative `int` error codes are modelled with `Except Int` or by an
`Int` result component.
-/

namespace Parp

/-- Decidable equality for `Except`, used to evaluate parser results on
concrete inputs. -/
instance {ε α : Type} [DecidableEq ε] [DecidableEq α] :
    DecidableEq (Except ε α) := fun a b =>
  match a, b with
  | .error x, .error y =>
    if h : x = y then .isTrue (congrArg Except.error h)
    else .isFalse (fun hc => h (Except.error.inj hc))
  | .error _, .ok _ => .isFalse (fun hc => Except.noConfusion hc)
  | .ok _, .error _ => .isFalse (fun hc => Except.noConfusion hc)
  | .ok x, .ok y =>
    if h : x = y then .isTrue (congrArg Except.ok h)
    else .isFalse (fun hc => h (Except.ok.inj hc))

/-! ## CRC-16 (wire variant), from `e310_protocol.c` -/

/-- One input byte of the wire CRC: xor the byte in, then 8 LSB-first
polynomial steps with polynomial 0x8408. -/
def e310_crc16_byte (crc b : Nat) : Nat :=
  let crc := crc ^^^ (b % 256)
  (List.range 8).foldl
    (fun c _ => if c % 2 = 1 then (c / 2) ^^^ 0x8408 else c / 2) crc

/-- `e310_crc16` from `e310_protocol.c`: init 0xFFFF, LSB-first, poly 0x8408. -/
def e310_crc16 (data : List Nat) : Nat :=
  data.foldl e310_crc16_byte 0xFFFF

/-- `e310_verify_crc`: frames shorter than 3 bytes fail with -1
(`E310_ERR_FRAME_TOO_SHORT`); otherwise the CRC over all but the last two
bytes must equal the little-endian stored CRC, else -2 (`E310_ERR_CRC_FAILED`). -/
def e310_verify_crc (frame : List Nat) : Int :=
  if frame.length < 3 then -1
  else
    let calculated := e310_crc16 (frame.take (frame.length - 2))
    let frame_crc := (frame.getD (frame.length - 2) 0 % 256) |||
      ((frame.getD (frame.length - 1) 0 % 256) <<< 8)
    if calculated = frame_crc then 0 else -2

/-! ## Frame building, from `e310_protocol.c` -/

/-- `e310_build_frame_header`: writes `Len = 4 + data_len` (as a uint8),
the reader address and the command byte at offsets 0..2. -/
def e310_build_frame_header (reader_addr cmd data_len : Nat) : List Nat :=
  [(4 + data_len) % 256, reader_addr, cmd]

/-- `e310_finalize_frame`: appends the wire CRC of the body, LSB first. -/
def e310_finalize_frame (body : List Nat) : List Nat :=
  let crc := e310_crc16 body
  body ++ [crc % 256, (crc / 256) % 256]

/-- The common build path of every `e310_build_*` function: header for
`data.length` payload bytes, the payload, then `e310_finalize_frame`. -/
def e310_build_frame (reader_addr cmd : Nat) (data : List Nat) : List Nat :=
  e310_finalize_frame (e310_build_frame_header reader_addr cmd data.length ++ data)

/-- `e310_build_start_fast_inventory` (command 0x50, one target byte). -/
def e310_build_start_fast_inventory (reader_addr target : Nat) : List Nat :=
  e310_build_frame reader_addr 0x50 [target]

/-- `e310_build_stop_fast_inventory` (command 0x51, no data). -/
def e310_build_stop_fast_inventory (reader_addr : Nat) : List Nat :=
  e310_build_frame reader_addr 0x51 []

/-- `e310_build_stop_immediately` (command 0x93, no data). -/
def e310_build_stop_immediately (reader_addr : Nat) : List Nat :=
  e310_build_frame reader_addr 0x93 []

/-! ## Response header parsing, from `e310_protocol.c` -/

/-- Parsed view of a response frame (`e310_response_header_t`). -/
structure e310_response_header_t where
  len : Nat
  addr : Nat
  recmd : Nat
  status : Nat
  deriving Repr, DecidableEq

/-- `e310_parse_response_header`: requires at least 5 bytes, a valid CRC,
and `Len + 1 = total length`. -/
def e310_parse_response_header (frame : List Nat) :
    Except Int e310_response_header_t :=
  if frame.length < 5 then .error (-1)
  else
    let crc_result := e310_verify_crc frame
    if crc_result ≠ 0 then .error crc_result
    else
      let header : e310_response_header_t :=
        { len := frame.getD 0 0, addr := frame.getD 1 0,
          recmd := frame.getD 2 0, status := frame.getD 3 0 }
      if header.len + 1 ≠ frame.length then .error (-3)
      else .ok header

/-! ## Frame assembler, from `uart_router.c` -/

/-- `frame_state_t` from `uart_router.h`. -/
inductive frame_state_t where
  | WAIT_LEN
  | RECEIVING
  | COMPLETE
  deriving Repr, DecidableEq

/-- `frame_assembler_t`: the buffer is modelled as the list of the
`received` bytes stored so far (the C array's live prefix). -/
structure frame_assembler_t where
  buffer : List Nat
  received : Nat
  expected : Nat
  state : frame_state_t
  last_byte_time : Int
  deriving Repr, DecidableEq

/-- `frame_assembler_reset`. -/
def frame_assembler_reset (fa : frame_assembler_t) : frame_assembler_t :=
  { fa with received := 0, expected := 0, state := .WAIT_LEN, last_byte_time := 0 }

/-- `FRAME_ASSEMBLER_TIMEOUT_MS` from `uart_router.c`. -/
def FRAME_ASSEMBLER_TIMEOUT_MS : Int := 100

/-- `E310_MIN_RESPONSE_SIZE` from `e310_protocol.h`. -/
def E310_MIN_RESPONSE_SIZE : Nat := 6

/-- `E310_MAX_FRAME_SIZE` from `e310_protocol.h`. -/
def E310_MAX_FRAME_SIZE : Nat := 256

/-- The byte loop of `frame_assembler_feed`. -/
def frame_assembler_feed_loop (fa : frame_assembler_t) (data : List Nat)
    (now : Int) (consumed : Nat) : frame_assembler_t × Nat :=
  match data with
  | [] => (fa, consumed)
  | b :: rest =>
    if fa.state = .COMPLETE then (fa, consumed)
    else
      let fa' :=
        match fa.state with
        | .WAIT_LEN =>
          let fa1 : frame_assembler_t :=
            { fa with buffer := [b], received := 1, expected := b + 1,
                      last_byte_time := now }
          if fa1.expected < E310_MIN_RESPONSE_SIZE ∨
             fa1.expected > E310_MAX_FRAME_SIZE then
            frame_assembler_reset fa1
          else
            { fa1 with state := .RECEIVING }
        | .RECEIVING =>
          if fa.received < E310_MAX_FRAME_SIZE then
            let fa1 : frame_assembler_t :=
              { fa with buffer := fa.buffer ++ [b], received := fa.received + 1,
                        last_byte_time := now }
            if fa1.received ≥ fa1.expected then { fa1 with state := .COMPLETE }
            else fa1
          else
            frame_assembler_reset fa
        | .COMPLETE => fa
      frame_assembler_feed_loop fa' rest now (consumed + 1)

/-- `frame_assembler_feed`: timeout check (in all states), then the byte loop. -/
def frame_assembler_feed (fa : frame_assembler_t) (data : List Nat)
    (now : Int) : frame_assembler_t × Nat :=
  if data.length = 0 then (fa, 0)
  else
    let fa :=
      if fa.last_byte_time > 0 ∧
         now - fa.last_byte_time > FRAME_ASSEMBLER_TIMEOUT_MS then
        frame_assembler_reset fa
      else fa
    frame_assembler_feed_loop fa data now 0

/-! ## Tag data parsing, from `e310_protocol.c` -/

/-- `E310_MAX_EPC_LENGTH` from `e310_protocol.h`. -/
def E310_MAX_EPC_LENGTH : Nat := 62

/-- `E310_MAX_TID_LENGTH` from `e310_protocol.h`. -/
def E310_MAX_TID_LENGTH : Nat := 32

/-- `e310_tag_data_t`: `epc`/`tid` modelled as the lists of their live bytes
(so `epc_len` is `epc.length`). -/
structure e310_tag_data_t where
  epc : List Nat := []
  tid : List Nat := []
  has_tid : Bool := false
  rssi : Nat := 0
  antenna : Nat := 0
  phase : Nat := 0
  has_phase : Bool := false
  frequency_khz : Nat := 0
  has_frequency : Bool := false
  deriving Repr, DecidableEq, Inhabited

/-- The EPC/TID extraction stage of `e310_parse_tag_data` (the value left
in the tag struct before the RSSI byte is read). -/
def e310_parse_tag_epc_part (data : List Nat) : e310_tag_data_t :=
  let b0 := data.getD 0 0
  let epc_tid_combined := b0 &&& 0x80 ≠ 0
  let data_bytes := b0 &&& 0x3F
  if epc_tid_combined ∧ data_bytes ≥ 2 then
    let pc_word := ((data.getD 1 0) <<< 8) ||| data.getD 2 0
    let epc_bytes := ((pc_word >>> 11) &&& 0x1F) * 2
    let epc_block_size := 2 + epc_bytes + 2
    if epc_block_size ≤ data_bytes then
      let epc_len := min epc_bytes E310_MAX_EPC_LENGTH
      let tid_len := data_bytes - epc_block_size
      if tid_len > 0 then
        { epc := (data.drop 3).take epc_len,
          tid := (data.drop (1 + epc_block_size)).take
            (min tid_len E310_MAX_TID_LENGTH),
          has_tid := true }
      else
        { epc := (data.drop 3).take epc_len }
    else
      { epc := (data.drop 1).take (min data_bytes E310_MAX_EPC_LENGTH) }
  else
    { epc := (data.drop 1).take (min data_bytes E310_MAX_EPC_LENGTH) }

/-- `e310_parse_tag_data`: returns the parsed tag and the number of bytes
consumed, or a negative error code. -/
def e310_parse_tag_data (data : List Nat) :
    Except Int (e310_tag_data_t × Nat) :=
  if data.length < 2 then .error (-1)
  else
    let b0 := data.getD 0 0
    let phase_freq_present := b0 &&& 0x40 ≠ 0
    let data_bytes := b0 &&& 0x3F
    if 1 + data_bytes > data.length then .error (-2)
    else
      let idx := 1 + data_bytes
      if idx ≥ data.length then .error (-3)
      else
        let tag1 := { e310_parse_tag_epc_part data with rssi := data.getD idx 0 }
        let idx := idx + 1
        if phase_freq_present then
          if idx + 4 > data.length then .error (-4)
          else
            let tag2 :=
              { tag1 with
                phase := data.getD idx 0 ||| ((data.getD (idx+1) 0) <<< 8) |||
                  ((data.getD (idx+2) 0) <<< 16) ||| ((data.getD (idx+3) 0) <<< 24),
                has_phase := true }
            let idx := idx + 4
            if idx + 3 ≤ data.length then
              .ok ({ tag2 with
                      frequency_khz := data.getD idx 0 |||
                        ((data.getD (idx+1) 0) <<< 8) |||
                        ((data.getD (idx+2) 0) <<< 16),
                      has_frequency := true }, idx + 3)
            else .ok (tag2, idx)
        else .ok (tag1, idx)

/-! ## Inventory-response processing, from `process_e310_frame` in
`uart_router.c` (the `TAG_INVENTORY` branch) -/

/-- The per-tag loop of the `TAG_INVENTORY` branch: up to `tag_count`
iterations while bytes remain, stopping at the first parse error, each tag's
`antenna` overwritten with the frame's antenna byte. -/
def parse_tag_blocks (block : List Nat) (count antenna : Nat) :
    List e310_tag_data_t :=
  match count with
  | 0 => []
  | n + 1 =>
    if block.length = 0 then []
    else
      match e310_parse_tag_data block with
      | .error _ => []
      | .ok (tag, consumed) =>
        { tag with antenna := antenna } ::
          parse_tag_blocks (block.drop consumed) n antenna

/-- Result of the `TAG_INVENTORY` branch of `process_e310_frame`. -/
structure inv_process_result where
  tags : List e310_tag_data_t
  round_done : Bool
  inventory_active : Bool
  deriving Repr, DecidableEq

/-- `E310_STATUS_*` codes from `e310_protocol.h`. -/
def E310_STATUS_SUCCESS : Nat := 0x00
def E310_STATUS_OPERATION_COMPLETE : Nat := 0x01
def E310_STATUS_INVENTORY_TIMEOUT : Nat := 0x02
def E310_STATUS_MORE_DATA : Nat := 0x03

/-- The `TAG_INVENTORY` branch of `process_e310_frame`: `frame` is the whole
validated frame (status at offset 3, antenna at 4, tag count at 5, tag blocks
from offset 6 up to the CRC). `inventory_active` is cleared whenever the
round is done. -/
def process_tag_inventory (frame : List Nat) (inventory_active : Bool) :
    inv_process_result :=
  let status := frame.getD 3 0
  let round_done : Bool :=
    if status = E310_STATUS_SUCCESS ∨ status = E310_STATUS_MORE_DATA then
      decide (status = E310_STATUS_SUCCESS)
    else
      -- OPERATION_COMPLETE, INVENTORY_TIMEOUT and every other status
      true
  let tags :=
    if status = E310_STATUS_SUCCESS ∨ status = E310_STATUS_MORE_DATA then
      let data_len := frame.length - 6
      if data_len ≥ 2 then
        parse_tag_blocks ((frame.drop 6).take (data_len - 2))
          (frame.getD 5 0) (frame.getD 4 0)
      else []
    else []
  { tags := tags, round_done := round_done,
    inventory_active := inventory_active && !round_done }

/-- A second definition, following the spec's words for the `TAG_INVENTORY`
payload: "iterate `tag_count` entries by calling `parse_tag_data` and
advancing by its returned consumed length; set `antenna` per-tag from the
leading byte".  Tags are collected first and the antenna applied afterwards,
for comparison against the embedded loop. -/
def spec_tag_iteration (block : List Nat) (count : Nat) :
    List e310_tag_data_t :=
  match count with
  | 0 => []
  | n + 1 =>
    match block, e310_parse_tag_data block with
    | _ :: _, .ok (tag, consumed) =>
      tag :: spec_tag_iteration (block.drop consumed) n
    | _, _ => []

/-! ## Settings store, from `e310_settings.c` / `e310_settings.h` -/

/-- `e310_settings_t` (48-byte `__packed` block); `reserved` is its 29-byte
padding area. -/
structure e310_settings_t where
  magic : Nat
  version : Nat
  flags : Nat
  rf_power : Nat
  antenna_config : Nat
  freq_region : Nat
  freq_start : Nat
  freq_end : Nat
  inventory_time : Nat
  reader_addr : Nat
  typing_speed : Nat
  reserved : List Nat
  crc16 : Nat
  deriving Repr, DecidableEq

/-- Little-endian serialization of a 16-bit field. -/
def u16le (v : Nat) : List Nat := [v % 256, v / 256 % 256]

/-- Little-endian serialization of a 32-bit field. -/
def u32le (v : Nat) : List Nat :=
  [v % 256, v / 256 % 256, v / 65536 % 256, v / 16777216 % 256]

/-- Byte image of the packed settings struct (the object `memcmp`,
`eeprom_write` and the CRC see). -/
def settings_to_bytes (s : e310_settings_t) : List Nat :=
  u32le s.magic ++
  [s.version % 256, s.flags % 256, s.rf_power % 256, s.antenna_config % 256,
   s.freq_region % 256, s.freq_start % 256, s.freq_end % 256,
   s.inventory_time % 256, s.reader_addr % 256] ++
  u16le s.typing_speed ++
  s.reserved.map (· % 256) ++
  u16le s.crc16

/-- One input byte of `crc16_ccitt` from `e310_settings.c`: xor into the high
byte, then 8 MSB-first polynomial steps with polynomial 0x1021, all in 16-bit
arithmetic. -/
def crc16_ccitt_byte (crc b : Nat) : Nat :=
  let crc := crc ^^^ ((b % 256) <<< 8)
  (List.range 8).foldl
    (fun c _ =>
      if c &&& 0x8000 ≠ 0 then ((c <<< 1) ^^^ 0x1021) % 65536
      else (c <<< 1) % 65536) crc

/-- `crc16_ccitt` from `e310_settings.c`: init 0xFFFF, MSB-first, poly 0x1021. -/
def crc16_ccitt (data : List Nat) : Nat :=
  data.foldl crc16_ccitt_byte 0xFFFF

/-- `CRC_DATA_SIZE` = `E310_SETTINGS_SIZE - 2` = 46. -/
def CRC_DATA_SIZE : Nat := 46

/-- `update_crc`: recompute the block CRC over the first 46 bytes. -/
def update_crc (s : e310_settings_t) : e310_settings_t :=
  { s with crc16 := crc16_ccitt ((settings_to_bytes s).take CRC_DATA_SIZE) }

/-- `load_defaults` from `e310_settings.c`. -/
def load_defaults : e310_settings_t :=
  { magic := 0x30313345, version := 0x01, flags := 0, rf_power := 20,
    antenna_config := 0x00, freq_region := 4, freq_start := 0, freq_end := 19,
    inventory_time := 50, reader_addr := 0xFF, typing_speed := 600,
    reserved := List.replicate 29 0, crc16 := 0 }

/-- `eeprom_write_verified`: the EEPROM device is modelled by an oracle —
`write_ret`/`read_ret` are the device return codes and `readback` the block
the verify read returns.  On a `memcmp` mismatch the result is
`-EIO` (-5); the RAM copy `ram` is not touched. -/
def eeprom_write_verified (ram : e310_settings_t) (write_ret read_ret : Int)
    (readback : List Nat) : Int :=
  if write_ret < 0 then write_ret
  else if read_ret < 0 then read_ret
  else if settings_to_bytes ram = readback then 0
  else -5

/-- `e310_settings_save`: returns the error code and the (possibly updated)
RAM copy.  Note the RAM copy keeps the flag/CRC updates even when the
verified write fails. -/
def e310_settings_save (ram : e310_settings_t) (eeprom_available : Bool)
    (write_ret read_ret : Int) (readback : List Nat) :
    Int × e310_settings_t :=
  if ¬eeprom_available then (0, ram)
  else
    let ram := update_crc { ram with flags := ram.flags ||| 1 }
    (eeprom_write_verified ram write_ret read_ret readback, ram)

/-- `e310_settings_set_rf_power`: validate, mutate the RAM copy, save. -/
def e310_settings_set_rf_power (ram : e310_settings_t)
    (eeprom_available : Bool) (power : Nat)
    (write_ret read_ret : Int) (readback : List Nat) :
    Int × e310_settings_t :=
  if power > 30 then (-22, ram)
  else
    e310_settings_save { ram with rf_power := power } eeprom_available
      write_ret read_ret readback

/-! ## HID emitter, from `usb_hid.c` -/

/-- `ascii_to_hid_keycode` (with `toupper` folded in, as in the source). -/
def ascii_to_hid_keycode (c : Nat) : Nat :=
  let c := if 97 ≤ c ∧ c ≤ 122 then c - 32 else c
  if 49 ≤ c ∧ c ≤ 57 then 0x1E + (c - 49)
  else if c = 48 then 0x27
  else if 65 ≤ c ∧ c ≤ 70 then 0x04 + (c - 65)
  else if c = 32 then 0x2C
  else 0

/-- An 8-byte keyboard report with `keycode` in slot 2 (all else zero). -/
def hid_key_report (keycode : Nat) : List Nat := [0, 0, keycode, 0, 0, 0, 0, 0]

/-- `usb_hid_send_epc` from `usb_hid.c`, with report submissions modelled as
succeeding: returns the C result code and the list of 8-byte reports
submitted to the device, in order.  The function consults no mute/enabled
flag — `usb_hid.h` declares `usb_hid_set_enabled`/`usb_hid_is_enabled` and
documents that a disabled state silently discards data, but no such check
(and no definition of those functions) exists in the sources. -/
def usb_hid_send_epc (hid_dev_ok hid_ready : Bool) (epc : List Nat) :
    Int × List (List Nat) :=
  if epc.length = 0 then (-22, [])
  else if ¬hid_dev_ok then (-19, [])
  else if ¬hid_ready then (-11, [])
  else
    let char_reports := epc.flatMap (fun c =>
      let keycode := ascii_to_hid_keycode (c % 256)
      if keycode = 0 then []
      else [hid_key_report keycode, hid_key_report 0])
    (0, char_reports ++ [hid_key_report 0x28, hid_key_report 0])

/-- `HID_TYPING_SPEED_*` from `usb_hid.h`. -/
def HID_TYPING_SPEED_MIN : Nat := 100
def HID_TYPING_SPEED_MAX : Nat := 1500
def HID_TYPING_SPEED_STEP : Nat := 100

/-- `usb_hid_set_typing_speed`: round to the nearest step of 100, then clamp
to [100, 1500]; returns the stored speed. -/
def usb_hid_set_typing_speed (cpm : Nat) : Nat :=
  let cpm := (cpm + HID_TYPING_SPEED_STEP / 2) / HID_TYPING_SPEED_STEP *
    HID_TYPING_SPEED_STEP
  if cpm < HID_TYPING_SPEED_MIN then HID_TYPING_SPEED_MIN
  else if cpm > HID_TYPING_SPEED_MAX then HID_TYPING_SPEED_MAX
  else cpm

/-! ## Router stop path, from `uart_router.c` -/

/-- `router_mode_t` from `uart_router.h`. -/
inductive router_mode_t where
  | IDLE
  | BYPASS
  | INVENTORY
  deriving Repr, DecidableEq

/-- The router state touched by the stop path, including the
LED/switch/HID side notifications it raises. -/
structure router_state_t where
  mode : router_mode_t
  inventory_active : Bool
  next_inventory_time : Int
  uart4_ready : Bool
  switch_inventory_state : Bool
  hid_enabled : Bool
  led_inventory_status : Bool
  deriving Repr, DecidableEq

/-- `uart_router_stop_inventory`: state is cleared and LED/switch/HID
notified before the Stop Immediately frame is built and sent; `send_ret` is
the `uart_router_send_uart4` outcome (the build itself cannot fail).  The
mode is NOT changed here. -/
def uart_router_stop_inventory (st : router_state_t) (send_ret : Int) :
    Int × router_state_t :=
  if ¬st.uart4_ready then (-19, st)
  else
    let st := { st with inventory_active := false, next_inventory_time := 0,
                        switch_inventory_state := false, hid_enabled := false,
                        led_inventory_status := false }
    if send_ret < 0 then (send_ret, st) else (0, st)

/-- `cmd_e310_stop` (shell `e310 stop`): calls `uart_router_stop_inventory`
and switches to IDLE mode only when that call succeeded. -/
def cmd_e310_stop (st : router_state_t) (send_ret : Int) :
    Int × router_state_t :=
  let r := uart_router_stop_inventory st send_ret
  if r.1 < 0 then r
  else (0, { r.2 with mode := .IDLE })

/-! ## EPC deduplication filter, from `uart_router.c` -/

/-- Modelled from the spec: `EPC_CACHE_SIZE` (32).  The filter struct and
this capacity constant are declared in a `uart_router.h` revision not in the
source tree (the `.c` file uses them); the value 32 is taken from the spec
(§3, "capacity `EPC_CACHE_SIZE` (32)"). -/
def EPC_CACHE_SIZE : Nat := 32

/-- One cache slot (`epc_cache_entry_t`); `epc` is the list of the
`epc_len` stored bytes.  A zeroed slot has an empty `epc`. -/
structure epc_cache_entry_t where
  epc : List Nat := []
  last_sent : Int := 0
  last_seen : Int := 0
  rssi_max : Nat := 0
  rssi_min : Nat := 0
  read_count : Nat := 0
  deriving Repr, DecidableEq, Inhabited

/-- `epc_filter_t`: a fixed array of `EPC_CACHE_SIZE` slots plus the live
count, the round-robin insertion index and the debounce window. -/
structure epc_filter_t where
  entries : List epc_cache_entry_t
  count : Nat
  next_idx : Nat
  debounce_ms : Nat
  deriving Repr, DecidableEq

/-- `epc_filter_clear`: empties the cache, keeping the debounce setting. -/
def epc_filter_clear (f : epc_filter_t) : epc_filter_t :=
  { f with count := 0, next_idx := 0,
           entries := List.replicate EPC_CACHE_SIZE default }

/-- The lookup loop of `epc_filter_check`: index of the first of the first
`cnt` entries whose stored EPC equals the key. -/
def epc_find (entries : List epc_cache_entry_t) (cnt : Nat)
    (epc : List Nat) : Option Nat :=
  match entries, cnt with
  | _, 0 => none
  | [], _ => none
  | e :: rest, k + 1 =>
    if e.epc = epc then some 0
    else (epc_find rest k epc).map (· + 1)

/-- `epc_filter_check` at time `now`: returns the decision
(`true` = Emit, `false` = Suppress) and the updated filter. -/
def epc_filter_check (f : epc_filter_t) (epc : List Nat) (rssi : Nat)
    (now : Int) : Bool × epc_filter_t :=
  match epc_find f.entries f.count epc with
  | some i =>
    let e := f.entries.getD i default
    let e := { e with read_count := e.read_count + 1, last_seen := now,
                      rssi_max := if rssi > e.rssi_max then rssi else e.rssi_max,
                      rssi_min := if rssi < e.rssi_min then rssi else e.rssi_min }
    if now - e.last_sent < (f.debounce_ms : Int) then
      (false, { f with entries := f.entries.set i e })
    else
      (true, { f with entries := f.entries.set i { e with last_sent := now } })
  | none =>
    let e : epc_cache_entry_t :=
      { epc := epc, last_sent := now, last_seen := now,
        rssi_max := rssi, rssi_min := rssi, read_count := 1 }
    (true,
      { f with entries := f.entries.set f.next_idx e,
               next_idx := (f.next_idx + 1) % EPC_CACHE_SIZE,
               count := if f.count < EPC_CACHE_SIZE then f.count + 1
                        else f.count })

/-- One `check` call as fed by the router: an EPC key, its RSSI and the
`k_uptime_get()` timestamp of the call. -/
structure epc_call_t where
  epc : List Nat
  rssi : Nat
  time : Int
  deriving Repr, DecidableEq, Inhabited

/-- Run a sequence of `epc_filter_check` calls, collecting the decisions. -/
def epc_filter_run (f : epc_filter_t) (calls : List epc_call_t) :
    epc_filter_t × List Bool :=
  match calls with
  | [] => (f, [])
  | c :: rest =>
    let r := epc_filter_check f c.epc c.rssi c.time
    let rr := epc_filter_run r.2 rest
    (rr.1, r.1 :: rr.2)


/-! ### Association-list model of the filter (for the sequential proof of
the dedup/debounce properties) -/

/-- Assoc-list lookup of a cache entry by EPC. -/
def epc_lookup (m : List epc_cache_entry_t) (e : List Nat) :
    Option epc_cache_entry_t :=
  match m with
  | [] => none
  | en :: rest => if en.epc = e then some en else epc_lookup rest e

/-- The in-place update `epc_filter_check` applies to a matching entry
(before the debounce decision). -/
def epc_entry_update (en : epc_cache_entry_t) (c : epc_call_t) :
    epc_cache_entry_t :=
  { en with read_count := en.read_count + 1, last_seen := c.time,
            rssi_max := if c.rssi > en.rssi_max then c.rssi else en.rssi_max,
            rssi_min := if c.rssi < en.rssi_min then c.rssi else en.rssi_min }

/-- The fresh entry `epc_filter_check` inserts for an unseen EPC. -/
def epc_new_entry (c : epc_call_t) : epc_cache_entry_t :=
  { epc := c.epc, last_sent := c.time, last_seen := c.time,
    rssi_max := c.rssi, rssi_min := c.rssi, read_count := 1 }

/-- `epc_filter_check` as an operation on the list of live entries (no
fixed-capacity array, no eviction); the filter refines this model while
fewer than `EPC_CACHE_SIZE` distinct EPCs have been seen. -/
def model_check (d : Nat) (m : List epc_cache_entry_t) (c : epc_call_t) :
    Bool × List epc_cache_entry_t :=
  match m with
  | [] => (true, [epc_new_entry c])
  | en :: rest =>
    if en.epc = c.epc then
      if c.time - en.last_sent < (d : Int) then
        (false, epc_entry_update en c :: rest)
      else
        (true, { epc_entry_update en c with last_sent := c.time } :: rest)
    else
      let r := model_check d rest c
      (r.1, en :: r.2)

/-- Run a call sequence through the model. -/
def model_run (d : Nat) (m : List epc_cache_entry_t)
    (cs : List epc_call_t) : List epc_cache_entry_t × List Bool :=
  match cs with
  | [] => (m, [])
  | c :: rest =>
    let r := model_check d m c
    let rr := model_run d r.2 rest
    (rr.1, r.1 :: rr.2)

/-- The search loop of `epc_filter_check` as an assoc-list search. -/
def model_find (m : List epc_cache_entry_t) (e : List Nat) : Option Nat :=
  match m with
  | [] => none
  | en :: rest =>
    if en.epc = e then some 0 else (model_find rest e).map (· + 1)

/-- Number of distinct new EPC keys a call sequence introduces over the
key set `ks`. -/
def num_new (cs : List epc_call_t) (ks : List (List Nat)) : Nat :=
  match cs with
  | [] => 0
  | c :: rest =>
    if c.epc ∈ ks then num_new rest ks
    else 1 + num_new rest (ks ++ [c.epc])

/-- Read count stored for an EPC (0 when absent). -/
def rc_of (m : List epc_cache_entry_t) (e : List Nat) : Nat :=
  match epc_lookup m e with
  | none => 0
  | some en => en.read_count

/-- All stored `last_sent` stamps are at or before every upcoming call. -/
def all_last_sent_le (m : List epc_cache_entry_t)
    (cs : List epc_call_t) : Prop :=
  ∀ en ∈ m, ∀ c ∈ cs, en.last_sent ≤ c.time

/-! ## Helper lemmas -/

lemma getD_append_right' {α : Type} (l l' : List α) (n : Nat) (d : α) (h : l.length ≤ n) :
    (l ++ l').getD n d = l'.getD (n - l.length) d := by
  simp [List.getD_eq_getElem?_getD, List.getElem?_append_right h]

lemma foldl_preserves {α : Type} (P : Nat → Prop) (f : Nat → α → Nat)
    (hf : ∀ c a, P c → P (f c a)) : ∀ (l : List α) (c : Nat), P c → P (l.foldl f c) := by
  intro l
  induction l with
  | nil => intro c hc; simpa using hc
  | cons a t ih => intro c hc; rw [List.foldl_cons]; exact ih _ (hf c a hc)

lemma e310_crc16_byte_lt (crc b : Nat) (h : crc < 65536) :
    e310_crc16_byte crc b < 65536 := by
  show (List.range 8).foldl
    (fun c _ => if c % 2 = 1 then (c / 2) ^^^ 0x8408 else c / 2)
    (crc ^^^ (b % 256)) < 65536
  refine foldl_preserves (· < 65536) _ ?_ _ _ ?_
  · intro c a hc
    dsimp only
    split
    · exact Nat.xor_lt_two_pow (x := c / 2) (n := 16) (by omega) (by norm_num)
    · omega
  · exact Nat.xor_lt_two_pow (n := 16) h (by omega)

lemma e310_crc16_lt (data : List Nat) : e310_crc16 data < 65536 := by
  refine foldl_preserves (· < 65536) _ ?_ _ _ (by norm_num)
  intro c a hc
  exact e310_crc16_byte_lt c a hc

lemma lor_two_bytes (c : Nat) :
    (c % 256) ||| ((c / 256) <<< 8) = c := by
  rw [Nat.shiftLeft_eq, Nat.lor_comm, Nat.mul_comm]
  rw [← Nat.mul_add_lt_is_or (Nat.mod_lt _ (by norm_num)) (c / 256)]
  omega

/-- `e310_finalize_frame` output passes `e310_verify_crc`. -/
lemma e310_verify_finalize (body : List Nat) (hb : 1 ≤ body.length) :
    e310_verify_crc (e310_finalize_frame body) = 0 := by
  have hc := e310_crc16_lt body
  show e310_verify_crc (body ++ [e310_crc16 body % 256, e310_crc16 body / 256 % 256]) = 0
  unfold e310_verify_crc
  rw [if_neg (by simp; omega)]
  have hl : (body ++ [e310_crc16 body % 256, e310_crc16 body / 256 % 256]).length
      = body.length + 2 := by simp
  rw [hl]
  have h2 : body.length + 2 - 2 = body.length := by omega
  have h1 : body.length + 2 - 1 = body.length + 1 := by omega
  rw [h2, h1, List.take_left, getD_append_right' _ _ _ _ (le_refl _),
      getD_append_right' _ _ _ _ (by omega)]
  simp only [Nat.sub_self, List.getD_cons_zero]
  have : body.length + 1 - body.length = 1 := by omega
  rw [this]
  simp only [List.getD_cons_succ, List.getD_cons_zero]
  have hm1 : e310_crc16 body % 256 % 256 = e310_crc16 body % 256 := by omega
  have hm2 : e310_crc16 body / 256 % 256 % 256 = e310_crc16 body / 256 := by omega
  simp only [hm1, hm2]
  rw [lor_two_bytes _, if_pos rfl]

/-- `e310_finalize_frame` output parses when the `Len` byte is consistent. -/
lemma e310_parse_finalize (body : List Nat) (h3 : 3 ≤ body.length)
    (hhead : body.getD 0 0 + 1 = body.length + 2) :
    e310_parse_response_header (e310_finalize_frame body) =
      .ok { len := body.getD 0 0, addr := body.getD 1 0,
            recmd := body.getD 2 0,
            status := (e310_finalize_frame body).getD 3 0 } := by
  have hv := e310_verify_finalize body (by omega)
  have hl : (e310_finalize_frame body).length = body.length + 2 := by
    show (body ++ [e310_crc16 body % 256, e310_crc16 body / 256 % 256]).length
      = body.length + 2
    simp
  have hget : ∀ i, i < 3 → (e310_finalize_frame body).getD i 0 = body.getD i 0 := by
    intro i hi
    show (body ++ [e310_crc16 body % 256, e310_crc16 body / 256 % 256]).getD i 0
      = body.getD i 0
    simp only [List.getD_eq_getElem?_getD]
    rw [List.getElem?_append_left (by omega)]
  unfold e310_parse_response_header
  rw [if_neg (by omega)]
  simp only [hv, ne_eq, not_true_eq_false, reduceIte]
  rw [hget 0 (by omega), hget 1 (by omega), hget 2 (by omega)]
  rw [if_neg (by omega)]

/-- C6: every frame produced through the common build path shared by the
`e310_build_*` functions (header + payload + `e310_finalize_frame`), with the
payload within the 251-byte bound that every successful builder call
guarantees, passes `e310_verify_crc`, and `e310_parse_response_header`
yields a header whose `len` field satisfies `len + 1 = total frame length`. -/
theorem e310_build_frame_roundtrip (addr cmd : Nat) (data : List Nat)
    (hlen : data.length ≤ 251) :
    e310_verify_crc (e310_build_frame addr cmd data) = 0 ∧
    ∃ h : e310_response_header_t,
      e310_parse_response_header (e310_build_frame addr cmd data) = .ok h ∧
      h.len + 1 = (e310_build_frame addr cmd data).length := by
  have hbody : (e310_build_frame_header addr cmd data.length ++ data).length
      = data.length + 3 := by simp [e310_build_frame_header]
  have hhead : (e310_build_frame_header addr cmd data.length ++ data).getD 0 0
      = 4 + data.length := by
    simp [e310_build_frame_header]
    omega
  constructor
  · exact e310_verify_finalize (e310_build_frame_header addr cmd data.length ++ data) (by rw [hbody]; omega)
  · refine ⟨_, e310_parse_finalize (e310_build_frame_header addr cmd data.length ++ data) (by rw [hbody]; omega) (by rw [hhead, hbody]; omega), ?_⟩
    have hl : (e310_build_frame addr cmd data).length = data.length + 5 := by
      show (e310_build_frame_header addr cmd data.length ++ data
        ++ [_, _]).length = data.length + 5
      simp [e310_build_frame_header]
    rw [hl]
    show (e310_build_frame_header addr cmd data.length ++ data).getD 0 0 + 1
      = data.length + 5
    rw [hhead]
    omega

/-- C6 witness: the round-trip instantiated at the Start Fast Inventory
frame (reader address 0, target 0). -/
theorem e310_build_frame_roundtrip_witness :
    e310_verify_crc (e310_build_frame 0 0x50 [0]) = 0 ∧
    ∃ h : e310_response_header_t,
      e310_parse_response_header (e310_build_frame 0 0x50 [0]) = .ok h ∧
      h.len + 1 = (e310_build_frame 0 0x50 [0]).length :=
  e310_build_frame_roundtrip 0 0x50 [0] (by decide)

/-! ## C7 : Start / Stop Fast Inventory byte layout -/

/-- C7: with `reader_addr = 0`, `e310_build_start_fast_inventory` with
target 0 is the 6 bytes `05 00 50 00` followed by the little-endian wire CRC
of those 4 bytes, and `e310_build_stop_fast_inventory` is the 5 bytes
`04 00 51` followed by the CRC of those 3 bytes. -/
theorem fast_inventory_frame_bytes :
    e310_build_start_fast_inventory 0 0 =
      [0x05, 0x00, 0x50, 0x00] ++
        [e310_crc16 [0x05, 0x00, 0x50, 0x00] % 256,
         e310_crc16 [0x05, 0x00, 0x50, 0x00] / 256] ∧
    (e310_build_start_fast_inventory 0 0).length = 6 ∧
    e310_build_stop_fast_inventory 0 =
      [0x04, 0x00, 0x51] ++
        [e310_crc16 [0x04, 0x00, 0x51] % 256,
         e310_crc16 [0x04, 0x00, 0x51] / 256] ∧
    (e310_build_stop_fast_inventory 0).length = 5 := by
  refine ⟨?_, by decide, ?_, by decide⟩ <;> decide

/-! ## C8 : typing-speed quantization -/

/-- C8: for every 16-bit `cpm`, `usb_hid_set_typing_speed` stores the unique
multiple of 100 in [100, 1500] closest to `cpm`, ties rounding up. -/
theorem usb_hid_set_typing_speed_closest (cpm : Nat) (hcpm : cpm < 65536) :
    usb_hid_set_typing_speed cpm % 100 = 0 ∧
    100 ≤ usb_hid_set_typing_speed cpm ∧
    usb_hid_set_typing_speed cpm ≤ 1500 ∧
    ∀ m : Nat, m % 100 = 0 → 100 ≤ m → m ≤ 1500 →
      Nat.dist cpm (usb_hid_set_typing_speed cpm) ≤ Nat.dist cpm m ∧
      (Nat.dist cpm (usb_hid_set_typing_speed cpm) = Nat.dist cpm m →
        m ≤ usb_hid_set_typing_speed cpm) := by
  unfold usb_hid_set_typing_speed HID_TYPING_SPEED_MIN HID_TYPING_SPEED_MAX
    HID_TYPING_SPEED_STEP
  simp only [Nat.dist]
  refine ⟨?_, ?_, ?_, fun m hm h1 h2 => ⟨?_, ?_⟩⟩ <;> split_ifs <;> omega

/-- C8 witness: 250 CPM is quantized to 300 (tie rounds up), which is at
least as close to 250 as the neighbouring step 200. -/
theorem usb_hid_set_typing_speed_closest_witness :
    250 < 65536 ∧ usb_hid_set_typing_speed 250 % 100 = 0 ∧
    100 ≤ usb_hid_set_typing_speed 250 ∧ usb_hid_set_typing_speed 250 ≤ 1500 ∧
    Nat.dist 250 (usb_hid_set_typing_speed 250) ≤ Nat.dist 250 200 :=
  ⟨by decide, (usb_hid_set_typing_speed_closest 250 (by decide)).1,
   (usb_hid_set_typing_speed_closest 250 (by decide)).2.1,
   (usb_hid_set_typing_speed_closest 250 (by decide)).2.2.1,
   ((usb_hid_set_typing_speed_closest 250 (by decide)).2.2.2 200
     (by decide) (by decide) (by decide)).1⟩

/-! ## C2 : HID mute gate -/

/-- C2 (code bug): `usb_hid_send_epc` consults no mute/enabled flag —
evaluated at the EPC text "41" with the device initialized and ready, it
returns success after submitting six reports (press/release for '4' and '1'
plus the Enter press/release).  `usb_hid.h` documents that a disabled HID
output makes `usb_hid_send_epc` silently discard the data without sending,
but no such check — and no definition of `usb_hid_set_enabled` /
`usb_hid_is_enabled` at all — exists in the sources. -/
theorem usb_hid_send_epc_ignores_mute :
    usb_hid_send_epc true true [0x34, 0x31] =
      (0, [hid_key_report 0x21, hid_key_report 0, hid_key_report 0x1E,
           hid_key_report 0, hid_key_report 0x28, hid_key_report 0]) ∧
    (usb_hid_send_epc true true [0x34, 0x31]).2.length = 6 := by decide

/-! ## C9 : best-effort stop -/

/-- C9 counterexample: when emitting the Stop Immediately frame fails
(`send_ret = -1`), the shell stop path returns the error without switching
the router mode to IDLE, so the claimed unconditional transition to Idle
does not happen (state and notifications are still cleared). -/
theorem cmd_e310_stop_send_fail_counterexample :
    (cmd_e310_stop
      { mode := .INVENTORY, inventory_active := true,
        next_inventory_time := 5000, uart4_ready := true,
        switch_inventory_state := true, hid_enabled := true,
        led_inventory_status := true } (-1)).1 = -1 ∧
    (cmd_e310_stop
      { mode := .INVENTORY, inventory_active := true,
        next_inventory_time := 5000, uart4_ready := true,
        switch_inventory_state := true, hid_enabled := true,
        led_inventory_status := true } (-1)).2.mode = .INVENTORY := by decide

/-- C9 amended: provided UART4 is ready, `uart_router_stop_inventory`
clears `inventory_active` and the pending next-inventory time and notifies
the switch, HID and LED regardless of the send outcome (they are updated
before the frame is emitted); the transition to IDLE, performed by
`cmd_e310_stop`, happens exactly when the send succeeded. -/
theorem stop_inventory_best_effort (st : router_state_t) (send_ret : Int)
    (hready : st.uart4_ready = true) :
    (uart_router_stop_inventory st send_ret).2.inventory_active = false ∧
    (uart_router_stop_inventory st send_ret).2.next_inventory_time = 0 ∧
    (uart_router_stop_inventory st send_ret).2.switch_inventory_state = false ∧
    (uart_router_stop_inventory st send_ret).2.hid_enabled = false ∧
    (uart_router_stop_inventory st send_ret).2.led_inventory_status = false ∧
    (uart_router_stop_inventory st send_ret).2.mode = st.mode ∧
    (uart_router_stop_inventory st send_ret).1 =
      (if send_ret < 0 then send_ret else 0) ∧
    (cmd_e310_stop st send_ret).2.mode =
      (if send_ret < 0 then st.mode else .IDLE) := by
  unfold cmd_e310_stop uart_router_stop_inventory
  rw [hready]
  split_ifs <;> simp_all

/-- C9 witness: the best-effort stop at a concrete inventory state, with
the send failing. -/
theorem stop_inventory_best_effort_witness :
    (uart_router_stop_inventory
      { mode := .INVENTORY, inventory_active := true,
        next_inventory_time := 5000, uart4_ready := true,
        switch_inventory_state := true, hid_enabled := true,
        led_inventory_status := true } (-1)).2.inventory_active = false ∧
    (uart_router_stop_inventory
      { mode := .INVENTORY, inventory_active := true,
        next_inventory_time := 5000, uart4_ready := true,
        switch_inventory_state := true, hid_enabled := true,
        led_inventory_status := true } (-1)).2.next_inventory_time = 0 ∧
    (uart_router_stop_inventory
      { mode := .INVENTORY, inventory_active := true,
        next_inventory_time := 5000, uart4_ready := true,
        switch_inventory_state := true, hid_enabled := true,
        led_inventory_status := true } (-1)).2.switch_inventory_state = false :=
  ⟨(stop_inventory_best_effort _ (-1) rfl).1,
   (stop_inventory_best_effort _ (-1) rfl).2.1,
   (stop_inventory_best_effort _ (-1) rfl).2.2.1⟩

/-! ## C3 : settings write-verify and rollback -/

/-- C3 counterexample: with the EEPROM available and a verify read-back
that differs from the written block, `e310_settings_set_rf_power 25` on the
default settings returns `-EIO` (-5) but leaves `rf_power = 25` in the RAM
copy — it is not rolled back to the pre-write value 20. -/
theorem set_rf_power_no_rollback_counterexample :
    (e310_settings_set_rf_power load_defaults true 25 0 0 []).1 = -5 ∧
    (e310_settings_set_rf_power load_defaults true 25 0 0 []).2.rf_power = 25 ∧
    load_defaults.rf_power = 20 := by decide

/-- C3 amended: when the verify read-back mismatches, the setter returns
`-EIO` but the RAM copy keeps the newly-written value (no rollback). -/
theorem set_rf_power_verify_fail_keeps_new_value
    (ram : e310_settings_t) (power : Nat) (readback : List Nat)
    (hp : power ≤ 30)
    (hmm : readback ≠
      settings_to_bytes (update_crc
        { ram with rf_power := power, flags := ram.flags ||| 1 })) :
    (e310_settings_set_rf_power ram true power 0 0 readback).1 = -5 ∧
    (e310_settings_set_rf_power ram true power 0 0 readback).2.rf_power
      = power := by
  unfold e310_settings_set_rf_power e310_settings_save eeprom_write_verified
  rw [if_neg (by omega)]
  simp only [not_true_eq_false, if_false, reduceIte]
  constructor
  · rw [if_neg (by omega), if_neg (by omega), if_neg (by exact fun h => hmm h.symm)]
  · simp [update_crc]

/-- C3 witness: the verify-failure path at the default settings with an
empty read-back. -/
theorem set_rf_power_verify_fail_keeps_new_value_witness :
    (e310_settings_set_rf_power load_defaults true 25 0 0 []).1 = -5 ∧
    (e310_settings_set_rf_power load_defaults true 25 0 0 []).2.rf_power = 25 :=
  set_rf_power_verify_fail_keeps_new_value load_defaults 25 []
    (by decide) (by decide)

/-! ## C1 : assembler length acceptance -/

/-- C1 counterexample: a length byte `Len = 4` (5 total bytes) lies inside
the claimed acceptance range `[5, 256]`, yet feeding it to the assembler in
`WaitLen` resets the assembler and discards the byte
(`E310_MIN_RESPONSE_SIZE` is 6, not 5). -/
theorem frame_assembler_rejects_len4 :
    (frame_assembler_feed
      { buffer := [], received := 0, expected := 0, state := .WAIT_LEN,
        last_byte_time := 0 } [0x04] 0).1.state = .WAIT_LEN ∧
    (frame_assembler_feed
      { buffer := [], received := 0, expected := 0, state := .WAIT_LEN,
        last_byte_time := 0 } [0x04] 0).1.received = 0 ∧
    (5 ≤ 0x04 + 1 ∧ 0x04 + 1 ≤ 256) := by decide

/-- C1 amended: in `WaitLen` a byte `b` is accepted for assembly exactly
when `b + 1 ∈ [6, 256]`, i.e. `b ≥ 5` (the upper bound holds for every
byte); `b < 5` resets the assembler and discards the byte.  Any frame whose
total length is in `[6, 256]`, whose `Len` byte matches and whose CRC
verifies parses successfully. -/
theorem frame_assembler_wait_len_accepts_iff (fa : frame_assembler_t)
    (b : Nat) (now : Int) (hb : b < 256) :
    ((frame_assembler_feed (frame_assembler_reset fa) [b] now).2 = 1 ∧
    (if 5 ≤ b then
      (frame_assembler_feed (frame_assembler_reset fa) [b] now).1 =
        { buffer := [b], received := 1, expected := b + 1,
          state := .RECEIVING, last_byte_time := now }
     else
      (frame_assembler_feed (frame_assembler_reset fa) [b] now).1 =
        { buffer := [b], received := 0, expected := 0,
          state := .WAIT_LEN, last_byte_time := 0 })) ∧
    (∀ frame : List Nat, 6 ≤ frame.length → frame.length ≤ 256 →
      frame.getD 0 0 + 1 = frame.length → e310_verify_crc frame = 0 →
      e310_parse_response_header frame =
        .ok { len := frame.getD 0 0, addr := frame.getD 1 0,
              recmd := frame.getD 2 0, status := frame.getD 3 0 }) := by
  constructor
  · have hfeed : frame_assembler_feed (frame_assembler_reset fa) [b] now =
        frame_assembler_feed_loop (frame_assembler_reset fa) [b] now 0 := by
      unfold frame_assembler_feed
      rw [if_neg (by simp)]
      rw [if_neg (by simp [frame_assembler_reset])]
    rw [hfeed]
    unfold frame_assembler_feed_loop
    simp only [frame_assembler_reset, E310_MIN_RESPONSE_SIZE, E310_MAX_FRAME_SIZE]
    split_ifs with h1 h2 <;> simp_all [frame_assembler_feed_loop] <;> omega
  · intro frame h6 h256 hlenb hcrc
    unfold e310_parse_response_header
    rw [if_neg (by omega)]
    simp only [hcrc, ne_eq, not_true_eq_false, reduceIte]
    rw [if_neg (by omega)]

/-- C1 witness: `b = 5` (6 total bytes) is accepted, and the 6-byte Start
Fast Inventory frame — whose CRC is valid — parses. -/
theorem frame_assembler_wait_len_accepts_iff_witness :
    (frame_assembler_feed (frame_assembler_reset
      { buffer := [], received := 0, expected := 0, state := .WAIT_LEN,
        last_byte_time := 0 }) [5] 7).2 = 1 ∧
    e310_parse_response_header (e310_build_frame 0 0x50 [0]) =
      .ok { len := (e310_build_frame 0 0x50 [0]).getD 0 0,
            addr := (e310_build_frame 0 0x50 [0]).getD 1 0,
            recmd := (e310_build_frame 0 0x50 [0]).getD 2 0,
            status := (e310_build_frame 0 0x50 [0]).getD 3 0 } :=
  ⟨(frame_assembler_wait_len_accepts_iff
      { buffer := [], received := 0, expected := 0, state := .WAIT_LEN,
        last_byte_time := 0 } 5 7 (by decide)).1.1,
   (frame_assembler_wait_len_accepts_iff
      { buffer := [], received := 0, expected := 0, state := .WAIT_LEN,
        last_byte_time := 0 } 5 7 (by decide)).2
     (e310_build_frame 0 0x50 [0]) (by decide) (by decide) (by decide)
     (by decide)⟩


/-! ## C10 : tag-parser fallback -/

/-- C10 counterexample: the input `[0x81, 0xAA]` has bit 7 set and
advertises 1 < 2 data bytes, yet `e310_parse_tag_data` fails with -3
(missing RSSI) instead of "not failing" as claimed for every such input. -/
theorem parse_tag_data_missing_rssi_counterexample :
    e310_parse_tag_data [0x81, 0xAA] = .error (-3) ∧
    (0x81 &&& 0x80 ≠ 0) ∧ (0x81 &&& 0x3F) < 2 := by decide

lemma parse_tag_epc_part_fallback (data : List Nat)
    (hfall : data.getD 0 0 &&& 0x3F < 2 ∨
      2 + ((((data.getD 1 0) <<< 8 ||| data.getD 2 0) >>> 11) &&& 0x1F) * 2 + 2
        > data.getD 0 0 &&& 0x3F) :
    e310_parse_tag_epc_part data =
      { epc := (data.drop 1).take (min (data.getD 0 0 &&& 0x3F) 62) } := by
  unfold e310_parse_tag_epc_part E310_MAX_EPC_LENGTH
  dsimp only
  rcases hfall with h | h
  · rw [if_neg (by omega)]
  · by_cases hc : data.getD 0 0 &&& 0x80 ≠ 0 ∧ data.getD 0 0 &&& 0x3F ≥ 2
    · rw [if_pos hc, if_neg (by omega)]
    · rw [if_neg hc]

/-- C10 amended: for inputs whose combined-EPC+TID bit is set but whose
PC-derived EPC block size exceeds the advertised byte count (or that
advertise fewer than 2 data bytes), `e310_parse_tag_data` does not fail,
provided the RSSI byte — and the 4 phase bytes when bit 6 is set — are
present: it treats all advertised data bytes as a plain EPC truncated at
62, reports no TID, consumes RSSI plus any phase/frequency fields and
returns the total bytes consumed. -/
theorem parse_tag_data_fallback (data : List Nat)
    (hb7 : data.getD 0 0 &&& 0x80 ≠ 0)
    (hfall : data.getD 0 0 &&& 0x3F < 2 ∨
      2 + ((((data.getD 1 0) <<< 8 ||| data.getD 2 0) >>> 11) &&& 0x1F) * 2 + 2
        > data.getD 0 0 &&& 0x3F)
    (hrssi : 1 + (data.getD 0 0 &&& 0x3F) < data.length)
    (hphase : data.getD 0 0 &&& 0x40 ≠ 0 →
      2 + (data.getD 0 0 &&& 0x3F) + 4 ≤ data.length) :
    ∃ tag consumed, e310_parse_tag_data data = .ok (tag, consumed) ∧
      tag.epc = (data.drop 1).take (min (data.getD 0 0 &&& 0x3F) 62) ∧
      tag.has_tid = false ∧ tag.tid = [] ∧
      tag.rssi = data.getD (1 + (data.getD 0 0 &&& 0x3F)) 0 ∧
      consumed = 2 + (data.getD 0 0 &&& 0x3F) +
        (if data.getD 0 0 &&& 0x40 ≠ 0 then
          (if 2 + (data.getD 0 0 &&& 0x3F) + 4 + 3 ≤ data.length then 7 else 4)
         else 0) := by
  have hept := parse_tag_epc_part_fallback data hfall
  unfold e310_parse_tag_data
  dsimp only
  rw [if_neg (by omega), if_neg (by omega), if_neg (by omega), hept]
  by_cases hpf : data.getD 0 0 &&& 0x40 ≠ 0
  · rw [if_pos hpf, if_neg (by have := hphase hpf; omega)]
    by_cases hfr : 1 + (data.getD 0 0 &&& 0x3F) + 1 + 4 + 3 ≤ data.length
    · rw [if_pos hfr]
      refine ⟨_, _, rfl, rfl, rfl, rfl, rfl, ?_⟩
      rw [if_pos hpf, if_pos (by omega)]
      omega
    · rw [if_neg hfr]
      refine ⟨_, _, rfl, rfl, rfl, rfl, rfl, ?_⟩
      rw [if_pos hpf, if_neg (by omega)]
      omega
  · rw [if_neg hpf]
    refine ⟨_, _, rfl, rfl, rfl, rfl, rfl, ?_⟩
    rw [if_neg hpf]
    omega

/-- C10 witness: the fallback at the 3-byte input `81 AA 55` (combined bit
set, one advertised data byte, RSSI present). -/
theorem parse_tag_data_fallback_witness :
    ∃ tag consumed,
      e310_parse_tag_data [0x81, 0xAA, 0x55] = .ok (tag, consumed) ∧
      tag.epc = (([0x81, 0xAA, 0x55] : List Nat).drop 1).take
        (min (([0x81, 0xAA, 0x55] : List Nat).getD 0 0 &&& 0x3F) 62) ∧
      tag.has_tid = false ∧ tag.tid = [] ∧
      tag.rssi = ([0x81, 0xAA, 0x55] : List Nat).getD
        (1 + (([0x81, 0xAA, 0x55] : List Nat).getD 0 0 &&& 0x3F)) 0 ∧
      consumed = 2 + (([0x81, 0xAA, 0x55] : List Nat).getD 0 0 &&& 0x3F) +
        (if ([0x81, 0xAA, 0x55] : List Nat).getD 0 0 &&& 0x40 ≠ 0 then
          (if 2 + (([0x81, 0xAA, 0x55] : List Nat).getD 0 0 &&& 0x3F) + 4 + 3 ≤
              ([0x81, 0xAA, 0x55] : List Nat).length then 7 else 4)
         else 0) :=
  parse_tag_data_fallback [0x81, 0xAA, 0x55] (by decide) (by decide)
    (by decide) (by decide)

/-! ## C4 : TAG_INVENTORY frame processing -/

/-- The embedded per-tag loop equals the spec's iteration with the antenna
byte applied per tag. -/
lemma parse_tag_blocks_eq_spec (block : List Nat) (count antenna : Nat) :
    parse_tag_blocks block count antenna =
      (spec_tag_iteration block count).map
        (fun t => { t with antenna := antenna }) := by
  induction count generalizing block with
  | zero => rfl
  | succ n ih =>
    unfold parse_tag_blocks spec_tag_iteration
    cases block with
    | nil => simp
    | cons b rest =>
      cases hp : e310_parse_tag_data (b :: rest) with
      | error e => simp [hp]
      | ok pr =>
        obtain ⟨tag, consumed⟩ := pr
        simp [hp, ih]

/-- C4 counterexample: a genuine TAG_INVENTORY response frame (recmd 0x01)
with status `Success` (0x00) — which the claim excludes from "round done" —
does end the round: `round_done` is set and `inventory_active` cleared. -/
theorem tag_inventory_success_ends_round :
    (process_tag_inventory (e310_finalize_frame [0x05, 0x00, 0x01, 0x00])
      true).round_done = true ∧
    (process_tag_inventory (e310_finalize_frame [0x05, 0x00, 0x01, 0x00])
      true).inventory_active = false ∧
    (e310_finalize_frame [0x05, 0x00, 0x01, 0x00]).getD 3 0 =
      E310_STATUS_SUCCESS ∧
    e310_parse_response_header (e310_finalize_frame [0x05, 0x00, 0x01, 0x00]) =
      .ok { len := 5, addr := 0, recmd := 1, status := 0 } := by decide

/-- C4 amended: on a TAG_INVENTORY frame, a status of `Success` or
`MoreData` makes the payload be processed as antenna, tag count and tag
blocks — iterated exactly as the spec describes, via `e310_parse_tag_data`
advancing by its consumed length, with the frame's antenna byte applied to
every tag — but the round is ended for every status except `MoreData`:
`Success` also ends it, in addition to `OperationComplete`,
`InventoryTimeout` and all other statuses. -/
theorem process_tag_inventory_correct (frame : List Nat) (active : Bool) :
    ((process_tag_inventory frame active).round_done = true ↔
      frame.getD 3 0 ≠ E310_STATUS_MORE_DATA) ∧
    ((process_tag_inventory frame active).inventory_active = true ↔
      (active = true ∧ frame.getD 3 0 = E310_STATUS_MORE_DATA)) ∧
    ((frame.getD 3 0 = E310_STATUS_SUCCESS ∨
      frame.getD 3 0 = E310_STATUS_MORE_DATA) → 8 ≤ frame.length →
      (process_tag_inventory frame active).tags =
        (spec_tag_iteration ((frame.drop 6).take (frame.length - 8))
          (frame.getD 5 0)).map
          (fun t => { t with antenna := frame.getD 4 0 })) ∧
    ((frame.getD 3 0 ≠ E310_STATUS_SUCCESS ∧
      frame.getD 3 0 ≠ E310_STATUS_MORE_DATA) →
      (process_tag_inventory frame active).tags = []) := by
  unfold process_tag_inventory E310_STATUS_SUCCESS E310_STATUS_MORE_DATA
  dsimp only
  refine ⟨?_, ?_, ?_, ?_⟩
  · split_ifs with h1
    · simp only [decide_eq_true_eq]
      omega
    · simp only [true_iff]
      omega
  · split_ifs with h1
    · simp only [Bool.and_eq_true, Bool.not_eq_true', decide_eq_false_iff_not]
      constructor
      · rintro ⟨ha, h⟩
        exact ⟨ha, by omega⟩
      · rintro ⟨ha, h⟩
        exact ⟨ha, by omega⟩
    · simp only [Bool.not_true, Bool.and_false, Bool.false_eq_true, false_iff,
        not_and]
      intro _
      exact fun h3 => h1 (Or.inr h3)
  · intro hst hlen
    rw [if_pos hst, if_pos (by omega)]
    have h2 : frame.length - 6 - 2 = frame.length - 8 := by omega
    simp only [h2, parse_tag_blocks_eq_spec]
  · intro hst
    rw [if_neg (by tauto)]

/-- C4 witness: a Success TAG_INVENTORY frame carrying one plain-EPC tag
block: the payload is iterated and the round is done. -/
theorem process_tag_inventory_correct_witness :
    ((process_tag_inventory (e310_finalize_frame
        [0x0F, 0x00, 0x01, 0x00, 0x80, 0x01,
         0x06, 0xE2, 0x00, 0x11, 0x22, 0x33, 0x44, 0x55]) true).round_done
      = true ↔
      (e310_finalize_frame
        [0x0F, 0x00, 0x01, 0x00, 0x80, 0x01,
         0x06, 0xE2, 0x00, 0x11, 0x22, 0x33, 0x44, 0x55]).getD 3 0 ≠
        E310_STATUS_MORE_DATA) ∧
    (process_tag_inventory (e310_finalize_frame
        [0x0F, 0x00, 0x01, 0x00, 0x80, 0x01,
         0x06, 0xE2, 0x00, 0x11, 0x22, 0x33, 0x44, 0x55]) true).tags =
      (spec_tag_iteration (((e310_finalize_frame
          [0x0F, 0x00, 0x01, 0x00, 0x80, 0x01,
           0x06, 0xE2, 0x00, 0x11, 0x22, 0x33, 0x44, 0x55]).drop 6).take
          ((e310_finalize_frame
            [0x0F, 0x00, 0x01, 0x00, 0x80, 0x01,
             0x06, 0xE2, 0x00, 0x11, 0x22, 0x33, 0x44, 0x55]).length - 8))
        ((e310_finalize_frame
          [0x0F, 0x00, 0x01, 0x00, 0x80, 0x01,
           0x06, 0xE2, 0x00, 0x11, 0x22, 0x33, 0x44, 0x55]).getD 5 0)).map
        (fun t => { t with antenna := (e310_finalize_frame
          [0x0F, 0x00, 0x01, 0x00, 0x80, 0x01,
           0x06, 0xE2, 0x00, 0x11, 0x22, 0x33, 0x44, 0x55]).getD 4 0 }) :=
  ⟨(process_tag_inventory_correct (e310_finalize_frame
      [0x0F, 0x00, 0x01, 0x00, 0x80, 0x01,
       0x06, 0xE2, 0x00, 0x11, 0x22, 0x33, 0x44, 0x55]) true).1,
   (process_tag_inventory_correct (e310_finalize_frame
      [0x0F, 0x00, 0x01, 0x00, 0x80, 0x01,
       0x06, 0xE2, 0x00, 0x11, 0x22, 0x33, 0x44, 0x55]) true).2.2.1
     (by decide) (by decide)⟩


/-! ## C5 : EPC filter debounce and read counting -/

lemma epc_find_spec (m : List epc_cache_entry_t) (pad : List epc_cache_entry_t)
    (e : List Nat) : epc_find (m ++ pad) m.length e = model_find m e := by
  induction m with
  | nil =>
    cases pad <;> rfl
  | cons en rest ih =>
    show epc_find (en :: (rest ++ pad)) (rest.length + 1) e = _
    unfold epc_find model_find
    rw [ih]

lemma model_find_none (m : List epc_cache_entry_t) (e : List Nat) :
    model_find m e = none ↔ epc_lookup m e = none := by
  induction m with
  | nil => simp [model_find, epc_lookup]
  | cons en rest ih =>
    unfold model_find epc_lookup
    split_ifs with h
    · simp
    · simpa using ih

lemma model_find_some (m : List epc_cache_entry_t) (e : List Nat) (i : Nat)
    (hfind : model_find m e = some i) :
    i < m.length ∧ (m.getD i default).epc = e ∧
    epc_lookup m e = some (m.getD i default) ∧
    ∀ (d : Nat) (c : epc_call_t), c.epc = e →
      model_check d m c =
        (decide ¬(c.time - (m.getD i default).last_sent < (d : Int)),
         m.set i (if c.time - (m.getD i default).last_sent < (d : Int) then
                    epc_entry_update (m.getD i default) c
                  else
                    { epc_entry_update (m.getD i default) c with
                        last_sent := c.time })) := by
  induction m generalizing i with
  | nil => simp [model_find] at hfind
  | cons en rest ih =>
    unfold model_find at hfind
    split_ifs at hfind with h
    · cases hfind
      refine ⟨by simp, by simpa using h, ?_, ?_⟩
      · simp [epc_lookup, h]
      · intro d c hc
        unfold model_check
        rw [if_pos (by rw [h, hc])]
        simp only [List.getD_cons_zero, List.set_cons_zero]
        split_ifs with hdeb <;> simp <;> omega
    · obtain ⟨i0, hfind0, rfl⟩ := Option.map_eq_some'.mp hfind
      obtain ⟨hlt, hepc, hlook, hcheck⟩ := ih i0 hfind0
      refine ⟨by simpa using hlt, by simpa using hepc, ?_, ?_⟩
      · simpa [epc_lookup, h] using hlook
      · intro d c hc
        unfold model_check
        rw [if_neg (by rw [hc]; exact h)]
        rw [hcheck d c hc]
        simp

lemma model_check_not_found (d : Nat) (c : epc_call_t)
    (m : List epc_cache_entry_t) (h : epc_lookup m c.epc = none) :
    model_check d m c = (true, m ++ [epc_new_entry c]) := by
  induction m with
  | nil => rfl
  | cons en rest ih =>
    unfold epc_lookup at h
    by_cases he : en.epc = c.epc
    · rw [if_pos he] at h
      exact Option.noConfusion h
    · rw [if_neg he] at h
      unfold model_check
      rw [if_neg he, ih h]
      simp

lemma epc_lookup_none_iff (m : List epc_cache_entry_t) (e : List Nat) :
    epc_lookup m e = none ↔ e ∉ m.map (·.epc) := by
  induction m with
  | nil => simp [epc_lookup]
  | cons en rest ih =>
    unfold epc_lookup
    split_ifs with he
    · simp [he]
    · simp only [List.map_cons, List.mem_cons]
      rw [ih]
      constructor
      · rintro hn (h1 | h2)
        · exact he h1.symm
        · exact hn h2
      · intro hn
        exact fun h2 => hn (Or.inr h2)

lemma model_check_found_keys (d : Nat) (c : epc_call_t) :
    ∀ m : List epc_cache_entry_t, (epc_lookup m c.epc).isSome = true →
      (model_check d m c).2.map (·.epc) = m.map (·.epc) ∧
      (model_check d m c).2.length = m.length := by
  intro m
  induction m with
  | nil => simp [epc_lookup]
  | cons en rest ih =>
    intro hs
    unfold epc_lookup at hs
    unfold model_check
    by_cases he : en.epc = c.epc
    · rw [if_pos he]
      refine ⟨?_, ?_⟩ <;> split_ifs with hdeb <;> simp [epc_entry_update, he]
    · rw [if_neg he] at hs
      rw [if_neg he]
      obtain ⟨hk, hl⟩ := ih hs
      simp [hk, hl]

lemma check_refines (d : Nat) (c : epc_call_t)
    (m pad : List epc_cache_entry_t)
    (hpadlen : m.length + pad.length = EPC_CACHE_SIZE)
    (hcap : (epc_lookup m c.epc).isSome = true ∨ m.length < EPC_CACHE_SIZE) :
    ∃ pad' : List epc_cache_entry_t,
      epc_filter_check ⟨m ++ pad, m.length, m.length % EPC_CACHE_SIZE, d⟩
          c.epc c.rssi c.time
        = ((model_check d m c).1,
           ⟨(model_check d m c).2 ++ pad', (model_check d m c).2.length,
            (model_check d m c).2.length % EPC_CACHE_SIZE, d⟩) ∧
      (model_check d m c).2.length + pad'.length = EPC_CACHE_SIZE := by
  unfold epc_filter_check
  cases hf : model_find m c.epc with
  | none =>
    have hlook : epc_lookup m c.epc = none := (model_find_none m c.epc).mp hf
    have hlen : m.length < EPC_CACHE_SIZE := by
      rcases hcap with h | h
      · rw [hlook] at h; simp at h
      · exact h
    rw [model_check_not_found d c m hlook]
    cases pad with
    | nil => simp at hpadlen; omega
    | cons p0 ptail =>
      refine ⟨ptail, ?_, ?_⟩
      · simp only [epc_find_spec, hf]
        have hmod : m.length % EPC_CACHE_SIZE = m.length :=
          Nat.mod_eq_of_lt hlen
        simp only [hmod]
        rw [List.set_append_right _ _ (le_refl _)]
        simp only [Nat.sub_self, List.set_cons_zero]
        rw [if_pos hlen]
        simp [epc_new_entry]
      · simp only [List.length_append, List.length_cons] at hpadlen ⊢
        simp
        omega
  | some i =>
    obtain ⟨hlt, hepc, hlook, hcheck⟩ := model_find_some m c.epc i hf
    rw [hcheck d c rfl]
    refine ⟨pad, ?_, ?_⟩
    · simp only [epc_find_spec, hf]
      have hgd : (m ++ pad).getD i default = m.getD i default := by
        simp only [List.getD_eq_getElem?_getD]
        rw [List.getElem?_append_left hlt]
      simp only [hgd]
      rw [List.set_append_left _ _ hlt, List.set_append_left _ _ hlt]
      have hslen : (m.set i (if c.time - (m.getD i default).last_sent < (d:Int)
          then epc_entry_update (m.getD i default) c
          else { epc_entry_update (m.getD i default) c with
                   last_sent := c.time })).length = m.length := by simp
      simp only [epc_entry_update]
      split_ifs with hdeb <;> simp_all
    · simp only [List.length_set]
      exact hpadlen

lemma run_refines (d : Nat) (cs : List epc_call_t) :
    ∀ (m pad : List epc_cache_entry_t),
    m.length + pad.length = EPC_CACHE_SIZE →
    m.length + num_new cs (m.map (·.epc)) ≤ EPC_CACHE_SIZE →
    ∃ pad' : List epc_cache_entry_t,
      epc_filter_run ⟨m ++ pad, m.length, m.length % EPC_CACHE_SIZE, d⟩ cs
        = (⟨(model_run d m cs).1 ++ pad', (model_run d m cs).1.length,
            (model_run d m cs).1.length % EPC_CACHE_SIZE, d⟩,
           (model_run d m cs).2) ∧
      (model_run d m cs).1.length + pad'.length = EPC_CACHE_SIZE := by
  induction cs with
  | nil =>
    intro m pad hpl hnn
    exact ⟨pad, by simp [epc_filter_run, model_run], hpl⟩
  | cons c rest ih =>
    intro m pad hpl hnn
    by_cases hmem : c.epc ∈ m.map (·.epc)
    · have hsome : (epc_lookup m c.epc).isSome = true := by
        cases hl : epc_lookup m c.epc with
        | none => exact absurd ((epc_lookup_none_iff m c.epc).mp hl) (by simpa using hmem)
        | some en => rfl
      obtain ⟨pad1, hstep, hpl1⟩ := check_refines d c m pad hpl (Or.inl hsome)
      obtain ⟨hkeys, hlen⟩ := model_check_found_keys d c m hsome
      have hnn1 : (model_check d m c).2.length +
          num_new rest ((model_check d m c).2.map (·.epc)) ≤ EPC_CACHE_SIZE := by
        rw [hkeys, hlen]
        unfold num_new at hnn
        rw [if_pos hmem] at hnn
        exact hnn
      obtain ⟨pad2, hrun, hpl2⟩ := ih (model_check d m c).2 pad1
        (by rw [hlen]; rw [hlen] at hpl1; exact hpl1) hnn1
      refine ⟨pad2, ?_, hpl2⟩
      unfold epc_filter_run model_run
      rw [hstep]
      simp only
      rw [hlen] at hrun ⊢
      rw [hrun]
    · have hnone : epc_lookup m c.epc = none :=
        (epc_lookup_none_iff m c.epc).mpr hmem
      have hlt : m.length < EPC_CACHE_SIZE := by
        unfold num_new at hnn
        rw [if_neg hmem] at hnn
        omega
      obtain ⟨pad1, hstep, hpl1⟩ := check_refines d c m pad hpl (Or.inr hlt)
      have hm' : (model_check d m c).2 = m ++ [epc_new_entry c] :=
        congrArg Prod.snd (model_check_not_found d c m hnone)
      have hkeys' : (model_check d m c).2.map (·.epc) =
          m.map (·.epc) ++ [c.epc] := by
        rw [hm']
        simp [epc_new_entry]
      have hlen' : (model_check d m c).2.length = m.length + 1 := by
        rw [hm']; simp
      have hnn1 : (model_check d m c).2.length +
          num_new rest ((model_check d m c).2.map (·.epc)) ≤ EPC_CACHE_SIZE := by
        rw [hkeys', hlen']
        unfold num_new at hnn
        rw [if_neg hmem] at hnn
        omega
      obtain ⟨pad2, hrun, hpl2⟩ := ih (model_check d m c).2 pad1
        (by rw [hlen']; rw [hlen'] at hpl1; exact hpl1) hnn1
      refine ⟨pad2, ?_, hpl2⟩
      unfold epc_filter_run model_run
      rw [hstep]
      simp only
      rw [hlen'] at hrun ⊢
      rw [hrun]

lemma epc_lookup_some_epc (m : List epc_cache_entry_t) (e : List Nat)
    (en : epc_cache_entry_t) (h : epc_lookup m e = some en) : en.epc = e := by
  induction m with
  | nil => exact Option.noConfusion h
  | cons e0 rest ih =>
    unfold epc_lookup at h
    split_ifs at h with he
    · cases h; exact he
    · exact ih h

lemma epc_lookup_mem (m : List epc_cache_entry_t) (e : List Nat)
    (en : epc_cache_entry_t) (h : epc_lookup m e = some en) : en ∈ m := by
  induction m with
  | nil => exact Option.noConfusion h
  | cons e0 rest ih =>
    unfold epc_lookup at h
    split_ifs at h with he
    · cases h; exact List.mem_cons_self _ _
    · exact List.mem_cons_of_mem _ (ih h)

lemma epc_lookup_some_index (m : List epc_cache_entry_t) (e : List Nat)
    (en : epc_cache_entry_t) (h : epc_lookup m e = some en) :
    ∃ j, j < m.length ∧ m.getD j default = en := by
  induction m with
  | nil => exact Option.noConfusion h
  | cons e0 rest ih =>
    unfold epc_lookup at h
    split_ifs at h with he
    · cases h; exact ⟨0, by simp, rfl⟩
    · obtain ⟨j, hj, hg⟩ := ih h
      exact ⟨j + 1, by simpa using hj, by simpa using hg⟩

/-- Checking one call leaves every other EPC's entry untouched. -/
lemma model_check_lookup_other (d : Nat) (c : epc_call_t)
    (m : List epc_cache_entry_t) (e : List Nat) (he : e ≠ c.epc) :
    epc_lookup (model_check d m c).2 e = epc_lookup m e := by
  induction m with
  | nil =>
    show epc_lookup [epc_new_entry c] e = none
    simp [epc_lookup, epc_new_entry, Ne.symm he]
  | cons en rest ih =>
    unfold model_check
    by_cases hc : en.epc = c.epc
    · rw [if_pos hc]
      have hne : ¬(en.epc = e) := by rw [hc]; exact fun hx => he hx.symm
      split_ifs with hdeb <;>
        simp only [epc_lookup, epc_entry_update] <;>
        rw [if_neg (by simpa using hne), if_neg (by simpa using hne)]
    · rw [if_neg hc]
      show epc_lookup (en :: (model_check d rest c).2) e = _
      unfold epc_lookup
      split_ifs with hx
      · rfl
      · exact ih

/-- The behavior of one check on the entry of the checked EPC. -/
lemma model_check_found_lookup (d : Nat) (c : epc_call_t)
    (m : List epc_cache_entry_t) (en : epc_cache_entry_t)
    (h : epc_lookup m c.epc = some en) :
    (model_check d m c).1 = decide (¬(c.time - en.last_sent < (d : Int))) ∧
    epc_lookup (model_check d m c).2 c.epc =
      some (if c.time - en.last_sent < (d : Int) then epc_entry_update en c
            else { epc_entry_update en c with last_sent := c.time }) := by
  induction m with
  | nil => exact Option.noConfusion h
  | cons e0 rest ih =>
    unfold epc_lookup at h
    unfold model_check
    split_ifs at h with he
    · cases h
      rw [if_pos he]
      constructor
      · split_ifs with hdeb <;> simp [hdeb]
      · split_ifs with hdeb <;>
          · show epc_lookup _ _ = _
            unfold epc_lookup
            rw [if_pos (by simp [epc_entry_update, he])]
    · rw [if_neg he]
      obtain ⟨h1, h2⟩ := ih h
      refine ⟨h1, ?_⟩
      show epc_lookup (e0 :: (model_check d rest c).2) c.epc = _
      unfold epc_lookup
      rw [if_neg he]
      exact h2

lemma epc_lookup_append_of_none (m : List epc_cache_entry_t) (e : List Nat)
    (x : epc_cache_entry_t) (h : epc_lookup m e = none) (hx : x.epc = e) :
    epc_lookup (m ++ [x]) e = some x := by
  induction m with
  | nil =>
    show epc_lookup [x] e = some x
    unfold epc_lookup
    rw [if_pos hx]
  | cons e0 rest ih =>
    unfold epc_lookup at h
    by_cases he : e0.epc = e
    · rw [if_pos he] at h
      exact Option.noConfusion h
    · rw [if_neg he] at h
      show epc_lookup (e0 :: (rest ++ [x])) e = some x
      unfold epc_lookup
      rw [if_neg he]
      exact ih h

/-- After an Emit, the checked EPC's entry records `last_sent = c.time`. -/
lemma model_check_emit_last_sent (d : Nat) (c : epc_call_t)
    (m : List epc_cache_entry_t) (hdec : (model_check d m c).1 = true) :
    ∃ en', epc_lookup (model_check d m c).2 c.epc = some en' ∧
      en'.last_sent = c.time := by
  cases hl : epc_lookup m c.epc with
  | none =>
    have hm : (model_check d m c).2 = m ++ [epc_new_entry c] :=
      congrArg Prod.snd (model_check_not_found d c m hl)
    rw [hm]
    exact ⟨epc_new_entry c, epc_lookup_append_of_none m c.epc _ hl rfl, rfl⟩
  | some en =>
    obtain ⟨h1, h2⟩ := model_check_found_lookup d c m en hl
    rw [hdec] at h1
    have hdeb : ¬(c.time - en.last_sent < (d : Int)) := by
      by_contra hcon
      simp [hcon] at h1
    rw [if_neg hdeb] at h2
    exact ⟨_, h2, rfl⟩

lemma model_check_rc_hit (d : Nat) (c : epc_call_t)
    (m : List epc_cache_entry_t) :
    rc_of (model_check d m c).2 c.epc = rc_of m c.epc + 1 := by
  cases hl : epc_lookup m c.epc with
  | none =>
    have hm : (model_check d m c).2 = m ++ [epc_new_entry c] :=
      congrArg Prod.snd (model_check_not_found d c m hl)
    unfold rc_of
    rw [hm, epc_lookup_append_of_none m c.epc _ hl rfl, hl]
    rfl
  | some en =>
    obtain ⟨_, h2⟩ := model_check_found_lookup d c m en hl
    unfold rc_of
    rw [h2, hl]
    split_ifs <;> simp [epc_entry_update]

lemma model_run_rc (d : Nat) (cs : List epc_call_t) :
    ∀ (m : List epc_cache_entry_t) (e : List Nat),
      rc_of (model_run d m cs).1 e =
        rc_of m e + (cs.filter (fun c => c.epc = e)).length := by
  induction cs with
  | nil => intro m e; simp [model_run]
  | cons c rest ih =>
    intro m e
    show rc_of (model_run d (model_check d m c).2 rest).1 e = _
    rw [ih]
    by_cases hc : c.epc = e
    · rw [← hc, model_check_rc_hit]
      rw [hc]
      rw [List.filter_cons, if_pos (by simpa using hc)]
      simp
      omega
    · unfold rc_of
      rw [model_check_lookup_other d c m e (fun hx => hc hx.symm)]
      rw [List.filter_cons, if_neg (by simpa using hc)]

lemma all_last_sent_le_step (d : Nat) (c : epc_call_t)
    (m : List epc_cache_entry_t) (cs : List epc_call_t)
    (hH : all_last_sent_le m (c :: cs))
    (hhead : ∀ b ∈ cs, c.time ≤ b.time) :
    all_last_sent_le (model_check d m c).2 cs := by
  induction m with
  | nil =>
    intro en hen b hb
    simp only [model_check, List.mem_singleton] at hen
    rw [hen]
    exact hhead b hb
  | cons e0 rest ih =>
    unfold model_check
    by_cases he : e0.epc = c.epc
    · rw [if_pos he]
      split_ifs with hdeb
      · intro en hen b hb
        rcases List.mem_cons.mp hen with h | h
        · subst h
          show (epc_entry_update e0 c).last_sent ≤ b.time
          simp only [epc_entry_update]
          exact hH e0 (by simp) b (List.mem_cons_of_mem _ hb)
        · exact hH en (List.mem_cons_of_mem _ h) b (List.mem_cons_of_mem _ hb)
      · intro en hen b hb
        rcases List.mem_cons.mp hen with h | h
        · subst h
          show c.time ≤ b.time
          exact hhead b hb
        · exact hH en (List.mem_cons_of_mem _ h) b (List.mem_cons_of_mem _ hb)
    · rw [if_neg he]
      intro en hen b hb
      rcases List.mem_cons.mp hen with h | h
      · subst h
        exact hH en (by simp) b (List.mem_cons_of_mem _ hb)
      · exact ih (fun x hx bb hbb => hH x (List.mem_cons_of_mem _ hx) bb hbb)
          en h b hb

/-- Every Emit for an EPC happens at least `debounce` after the `last_sent`
stamp its entry carried when the sequence started. -/
lemma model_run_emit_measures (d : Nat) (cs : List epc_call_t) :
    ∀ (m : List epc_cache_entry_t) (en : epc_cache_entry_t) (e : List Nat),
      cs.Pairwise (fun a b => a.time ≤ b.time) →
      all_last_sent_le m cs →
      epc_lookup m e = some en →
      ∀ j, j < cs.length → (cs.getD j default).epc = e →
        (model_run d m cs).2.getD j false = true →
        (d : Int) ≤ (cs.getD j default).time - en.last_sent := by
  induction cs with
  | nil =>
    intro m en e _ _ _ j hj
    exact absurd hj (by simp)
  | cons c rest ih =>
    intro m en e hmono hH hl j hj hje hdec
    obtain ⟨hhead, htail⟩ := List.pairwise_cons.mp hmono
    have hdecs : (model_run d m (c :: rest)).2 =
        (model_check d m c).1 :: (model_run d (model_check d m c).2 rest).2 :=
      rfl
    cases j with
    | zero =>
      have hje0 : c.epc = e := by simpa using hje
      have hlc : epc_lookup m c.epc = some en := by rw [hje0]; exact hl
      have h1 := (model_check_found_lookup d c m en hlc).1
      have hdec0 : (model_check d m c).1 = true := by
        rw [hdecs] at hdec
        simpa using hdec
      rw [hdec0] at h1
      have hnl : ¬(c.time - en.last_sent < (d : Int)) :=
        of_decide_eq_true h1.symm
      simp only [List.getD_cons_zero]
      omega
    | succ j' =>
      have hH' := all_last_sent_le_step d c m rest hH hhead
      have hj' : j' < rest.length := by simpa using hj
      have hje' : (rest.getD j' default).epc = e := by simpa using hje
      have hdec' : (model_run d (model_check d m c).2 rest).2.getD j' false
          = true := by
        rw [hdecs] at hdec
        simpa using hdec
      simp only [List.getD_cons_succ]
      by_cases hce : c.epc = e
      · have hlc : epc_lookup m c.epc = some en := by rw [hce]; exact hl
        obtain ⟨h1f, h2f⟩ := model_check_found_lookup d c m en hlc
        by_cases hdeb : c.time - en.last_sent < (d : Int)
        · rw [if_pos hdeb] at h2f
          have hl' : epc_lookup (model_check d m c).2 e =
              some (epc_entry_update en c) := by rw [← hce]; exact h2f
          have := ih (model_check d m c).2 (epc_entry_update en c) e htail
            hH' hl' j' hj' hje' hdec'
          simpa [epc_entry_update] using this
        · rw [if_neg hdeb] at h2f
          have hl' : epc_lookup (model_check d m c).2 e =
              some { epc_entry_update en c with last_sent := c.time } := by
            rw [← hce]; exact h2f
          have hlast : en.last_sent ≤ c.time :=
            hH en (epc_lookup_mem m c.epc en hlc) c (by simp)
          have := ih (model_check d m c).2 _ e htail hH' hl' j' hj' hje' hdec'
          simp only at this
          omega
      · have hl' : epc_lookup (model_check d m c).2 e = some en := by
          rw [model_check_lookup_other d c m e (fun hx => hce hx.symm)]
          exact hl
        exact ih (model_check d m c).2 en e htail hH' hl' j' hj' hje' hdec'

/-- Two Emits of the same EPC are at least `debounce` apart. -/
lemma model_run_emit_spacing (d : Nat) (cs : List epc_call_t) :
    ∀ m : List epc_cache_entry_t,
      cs.Pairwise (fun a b => a.time ≤ b.time) →
      all_last_sent_le m cs →
      ∀ i j, i < j → j < cs.length →
        (cs.getD i default).epc = (cs.getD j default).epc →
        (model_run d m cs).2.getD i false = true →
        (model_run d m cs).2.getD j false = true →
        (d : Int) ≤ (cs.getD j default).time - (cs.getD i default).time := by
  induction cs with
  | nil =>
    intro m _ _ i j _ hj
    exact absurd hj (by simp)
  | cons c rest ih =>
    intro m hmono hH i j hij hj hepc hdi hdj
    obtain ⟨hhead, htail⟩ := List.pairwise_cons.mp hmono
    have hH' := all_last_sent_le_step d c m rest hH hhead
    have hdecs : (model_run d m (c :: rest)).2 =
        (model_check d m c).1 :: (model_run d (model_check d m c).2 rest).2 :=
      rfl
    cases i with
    | zero =>
      obtain ⟨j', rfl⟩ : ∃ j', j = j' + 1 := ⟨j - 1, by omega⟩
      have hdec0 : (model_check d m c).1 = true := by
        rw [hdecs] at hdi
        simpa using hdi
      obtain ⟨en', hlen', hsent'⟩ := model_check_emit_last_sent d c m hdec0
      have hje' : (rest.getD j' default).epc = c.epc := by
        simp only [List.getD_cons_zero, List.getD_cons_succ] at hepc
        exact hepc.symm
      have hdec' : (model_run d (model_check d m c).2 rest).2.getD j' false
          = true := by
        rw [hdecs] at hdj
        simpa using hdj
      have := model_run_emit_measures d rest (model_check d m c).2 en' c.epc
        htail hH' hlen' j' (by simpa using hj) hje' hdec'
      rw [hsent'] at this
      simpa using this
    | succ i' =>
      obtain ⟨j', rfl⟩ : ∃ j', j = j' + 1 := ⟨j - 1, by omega⟩
      have hdi' : (model_run d (model_check d m c).2 rest).2.getD i' false
          = true := by
        rw [hdecs] at hdi
        simpa using hdi
      have hdj' : (model_run d (model_check d m c).2 rest).2.getD j' false
          = true := by
        rw [hdecs] at hdj
        simpa using hdj
      have := ih (model_check d m c).2 htail hH' i' j' (by omega)
        (by simpa using hj) (by simpa using hepc) hdi' hdj'
      simpa using this

/-- C5 counterexample: after 33 distinct EPCs the ring insertion index has
wrapped and the entry for the first EPC has been evicted, so re-checking it
at the same timestamp (well inside the 3000 ms debounce window of its own
earlier Emit) yields Emit again, and its `read_count` is 1 although it has
been checked twice since the clear — both halves of the claim fail once
eviction occurs. -/
theorem epc_filter_eviction_counterexample :
    (epc_filter_run (epc_filter_clear { entries := [], count := 0, next_idx := 0, debounce_ms := 3000 })
      ((List.range 33).map (fun i => ({ epc := [i+1], rssi := 50, time := 0 } : epc_call_t)) ++
        [({ epc := [1], rssi := 50, time := 0 } : epc_call_t)])).2.getD 0 false = true ∧
    (epc_filter_run (epc_filter_clear { entries := [], count := 0, next_idx := 0, debounce_ms := 3000 })
      ((List.range 33).map (fun i => ({ epc := [i+1], rssi := 50, time := 0 } : epc_call_t)) ++
        [({ epc := [1], rssi := 50, time := 0 } : epc_call_t)])).2.getD 33 false = true ∧
    ((epc_filter_run (epc_filter_clear { entries := [], count := 0, next_idx := 0, debounce_ms := 3000 })
      ((List.range 33).map (fun i => ({ epc := [i+1], rssi := 50, time := 0 } : epc_call_t)) ++
        [({ epc := [1], rssi := 50, time := 0 } : epc_call_t)])).1.entries.getD 1 default).epc = [1] ∧
    ((epc_filter_run (epc_filter_clear { entries := [], count := 0, next_idx := 0, debounce_ms := 3000 })
      ((List.range 33).map (fun i => ({ epc := [i+1], rssi := 50, time := 0 } : epc_call_t)) ++
        [({ epc := [1], rssi := 50, time := 0 } : epc_call_t)])).1.entries.getD 1 default).read_count = 1 ∧
    (((List.range 33).map (fun i => ({ epc := [i+1], rssi := 50, time := 0 }
        : epc_call_t)) ++ [({ epc := [1], rssi := 50, time := 0 } : epc_call_t)]).filter
      (fun c => c.epc = [1])).length = 2 := by decide

/-- C5 amended: starting from a cleared filter, provided the sequence
checks at most `EPC_CACHE_SIZE` (32) distinct EPCs (so no entry is evicted)
and timestamps are non-decreasing, (1) any two Emits of the same EPC are at
least `debounce_ms` apart — equivalently, a repeat of an EPC within
`debounce_ms` of its last Emit is suppressed — and (2) each checked EPC's
cache entry has `read_count` equal to the number of `check` calls for that
EPC since the `clear`. -/
theorem epc_filter_debounce_readcount (f : epc_filter_t)
    (cs : List epc_call_t)
    (hdist : num_new cs [] ≤ EPC_CACHE_SIZE)
    (hmono : cs.Pairwise (fun a b => a.time ≤ b.time)) :
    (∀ i j, i < j → j < cs.length →
      (cs.getD i default).epc = (cs.getD j default).epc →
      (epc_filter_run (epc_filter_clear f) cs).2.getD i false = true →
      (epc_filter_run (epc_filter_clear f) cs).2.getD j false = true →
      (f.debounce_ms : Int) ≤
        (cs.getD j default).time - (cs.getD i default).time) ∧
    (∀ e : List Nat, 0 < (cs.filter (fun c => c.epc = e)).length →
      ∃ j, j < (epc_filter_run (epc_filter_clear f) cs).1.count ∧
        ((epc_filter_run (epc_filter_clear f) cs).1.entries.getD j
          default).epc = e ∧
        ((epc_filter_run (epc_filter_clear f) cs).1.entries.getD j
          default).read_count = (cs.filter (fun c => c.epc = e)).length) := by
  have hstart : epc_filter_clear f =
      ⟨([] : List epc_cache_entry_t) ++
         List.replicate EPC_CACHE_SIZE default,
       ([] : List epc_cache_entry_t).length,
       ([] : List epc_cache_entry_t).length % EPC_CACHE_SIZE,
       f.debounce_ms⟩ := rfl
  obtain ⟨pad', hrun, hpl'⟩ := run_refines f.debounce_ms cs []
    (List.replicate EPC_CACHE_SIZE default) (by simp) (by simpa using hdist)
  rw [hstart, hrun]
  constructor
  · intro i j hij hj hepc hdi hdj
    exact model_run_emit_spacing f.debounce_ms cs [] hmono
      (by intro en hen; exact absurd hen (by simp)) i j hij hj hepc
      (by simpa using hdi) (by simpa using hdj)
  · intro e hpos
    have hrc := model_run_rc f.debounce_ms cs [] e
    have hrc0 : rc_of ([] : List epc_cache_entry_t) e = 0 := rfl
    rw [hrc0] at hrc
    cases hl : epc_lookup (model_run f.debounce_ms [] cs).1 e with
    | none =>
      unfold rc_of at hrc
      rw [hl] at hrc
      dsimp only at hrc
      omega
    | some en =>
      have hepc := epc_lookup_some_epc _ _ _ hl
      obtain ⟨j, hjlt, hgd⟩ := epc_lookup_some_index _ _ _ hl
      refine ⟨j, ?_, ?_, ?_⟩
      · simpa using hjlt
      · have : ((model_run f.debounce_ms [] cs).1 ++ pad').getD j default =
            (model_run f.debounce_ms [] cs).1.getD j default := by
          simp only [List.getD_eq_getElem?_getD]
          rw [List.getElem?_append_left hjlt]
        simp only [this, hgd, hepc]
      · have : ((model_run f.debounce_ms [] cs).1 ++ pad').getD j default =
            (model_run f.debounce_ms [] cs).1.getD j default := by
          simp only [List.getD_eq_getElem?_getD]
          rw [List.getElem?_append_left hjlt]
        simp only [this, hgd]
        unfold rc_of at hrc
        rw [hl] at hrc
        dsimp only at hrc
        omega

/-- C5 witness: one EPC checked at t = 0, 1000, 3500 with a 3000 ms
debounce: its cache entry counts all three checks. -/
theorem epc_filter_debounce_readcount_witness :
    ∃ j, j < (epc_filter_run (epc_filter_clear
        { entries := [], count := 0, next_idx := 0, debounce_ms := 3000 })
        [({ epc := [0xE2], rssi := 50, time := 0 } : epc_call_t),
         ({ epc := [0xE2], rssi := 50, time := 1000 } : epc_call_t),
         ({ epc := [0xE2], rssi := 50, time := 3500 } : epc_call_t)]).1.count ∧
      ((epc_filter_run (epc_filter_clear
        { entries := [], count := 0, next_idx := 0, debounce_ms := 3000 })
        [({ epc := [0xE2], rssi := 50, time := 0 } : epc_call_t),
         ({ epc := [0xE2], rssi := 50, time := 1000 } : epc_call_t),
         ({ epc := [0xE2], rssi := 50, time := 3500 } : epc_call_t)]).1.entries.getD
          j default).epc = [0xE2] ∧
      ((epc_filter_run (epc_filter_clear
        { entries := [], count := 0, next_idx := 0, debounce_ms := 3000 })
        [({ epc := [0xE2], rssi := 50, time := 0 } : epc_call_t),
         ({ epc := [0xE2], rssi := 50, time := 1000 } : epc_call_t),
         ({ epc := [0xE2], rssi := 50, time := 3500 } : epc_call_t)]).1.entries.getD
          j default).read_count =
        (([({ epc := [0xE2], rssi := 50, time := 0 } : epc_call_t),
           ({ epc := [0xE2], rssi := 50, time := 1000 } : epc_call_t),
           ({ epc := [0xE2], rssi := 50, time := 3500 } : epc_call_t)]).filter
          (fun c => c.epc = [0xE2])).length :=
  (epc_filter_debounce_readcount
    { entries := [], count := 0, next_idx := 0, debounce_ms := 3000 }
    [({ epc := [0xE2], rssi := 50, time := 0 } : epc_call_t),
     ({ epc := [0xE2], rssi := 50, time := 1000 } : epc_call_t),
     ({ epc := [0xE2], rssi := 50, time := 3500 } : epc_call_t)]
    (by decide) (by decide)).2 [0xE2] (by decide)

end Parp
